import Mathlib

/-
Verification development for the SellWizr HTML-table data pipeline.

The pipeline extracts tables from HTML, infers a typed relational schema
(ParserService), streams typed rows through Kafka (KafkaConsumerService),
and batch-inserts them into MySQL (DatabaseService, ConsumerController).
This file gives a shallow embedding of the relevant source functions and
proves or refutes the specified properties about them.

Strings are modelled as lists of characters so that the character-level
transformations of the source (regex replacements, trimming, truncation)
can be written out explicitly. JavaScript numbers are modelled exactly
(integers as Int, decimal literals as rationals); the rounding of values
to binary doubles is not modelled, and none of the verified properties
depend on it. Unicode case mapping is approximated by the ASCII case map,
which agrees with the source on every character that survives the
identifier filter used downstream.
-/

namespace SellWizr

/-- Character class matched by the JavaScript whitespace regex class and by
String.prototype.trim: ASCII whitespace plus the Unicode space separators,
the line separators, the narrow and medium mathematical spaces, the
ideographic space and the byte order mark. -/
def jsWhitespace (c : Char) : Bool :=
  let n := c.toNat
  n == 9 || n == 10 || n == 11 || n == 12 || n == 13 || n == 32 ||
  n == 160 || n == 5760 || (Nat.ble 8192 n && Nat.ble n 8202) ||
  n == 8232 || n == 8233 || n == 8239 || n == 8287 || n == 12288 || n == 65279

/-- Model of String.prototype.trim: drop whitespace from both ends. -/
def jsTrim (l : List Char) : List Char :=
  ((l.dropWhile jsWhitespace).reverse.dropWhile jsWhitespace).reverse

/-- Replace every maximal run of whitespace by the single character r, as the
global replace of a one-or-more whitespace pattern does in the source. The
boolean argument records whether the previous character was whitespace. -/
def collapseWs (r : Char) : Bool → List Char → List Char
  | _, [] => []
  | prev, c :: cs =>
    if jsWhitespace c then
      if prev then collapseWs r true cs else r :: collapseWs r true cs
    else c :: collapseWs r false cs

/-- Remove every lazily matched bracket span, as the global replace of an
opening bracket, a shortest character run and a closing bracket does. The
source applies this only after collapsing whitespace runs to single spaces,
so the input contains no newline and the dot class excludes nothing. -/
def removeBracketsFuel : Nat → List Char → List Char
  | _, [] => []
  | 0, l => l
  | fuel + 1, c :: cs =>
    if c = '[' && cs.contains ']' then
      removeBracketsFuel fuel ((cs.dropWhile (fun x => x != ']')).drop 1)
    else
      c :: removeBracketsFuel fuel cs

/-- Entry point of the bracket removal; every step of the scan consumes at
least one character, so the input length is always enough fuel and the
zero-fuel fallback is never reached. -/
def removeBrackets (l : List Char) : List Char :=
  removeBracketsFuel l.length l

/-- ParserService.cleanValue: collapse whitespace runs to single spaces,
remove citation bracket spans, trim. -/
def cleanValue (l : List Char) : List Char :=
  jsTrim (removeBrackets (collapseWs ' ' false l))

/-- The DataType enum of schema.model.ts. -/
inductive DataType
  | INT
  | BIGINT
  | FLOAT
  | VARCHAR
  | TEXT
  | DATE
  | TIMESTAMP
  | BOOLEAN
  deriving DecidableEq, Repr, Fintype

/-- The priority table inside ParserService.mergeDataTypes. -/
def typePriority : DataType → Nat
  | .TEXT => 8
  | .VARCHAR => 7
  | .FLOAT => 6
  | .BIGINT => 5
  | .INT => 4
  | .TIMESTAMP => 3
  | .DATE => 2
  | .BOOLEAN => 1

/-- ParserService.mergeDataTypes: keep the higher-priority type. -/
def mergeDataTypes (t1 t2 : DataType) : DataType :=
  if t1 = t2 then t1
  else if typePriority t1 > typePriority t2 then t1 else t2

/-- One or more decimal digits. -/
def digits1 (l : List Char) : Bool :=
  !l.isEmpty && l.all Char.isDigit

/-- Anchored match of an optional leading minus followed by digits. -/
def intShape (l : List Char) : Bool :=
  match l with
  | '-' :: rest => digits1 rest
  | _ => digits1 l

/-- Anchored match of an optional minus, digits, a dot, and digits. -/
def floatShape (l : List Char) : Bool :=
  let core := match l with
    | '-' :: rest => rest
    | _ => l
  match core.span Char.isDigit with
  | (d1, '.' :: d2) => !d1.isEmpty && digits1 d2
  | _ => false

/-- Anchored match of four digits, a dash, two digits, a dash, two digits. -/
def dateShape (l : List Char) : Bool :=
  match l with
  | [y1, y2, y3, y4, s1, m1, m2, s2, d1, d2] =>
    y1.isDigit && y2.isDigit && y3.isDigit && y4.isDigit &&
    s1 == '-' && m1.isDigit && m2.isDigit && s2 == '-' &&
    d1.isDigit && d2.isDigit
  | _ => false

/-- Unanchored-at-the-end match of a date, a T or space separator, and an
hour-minute pair. The optional seconds group of the source pattern only
extends the match, so it does not affect acceptance. -/
def timestampShape (l : List Char) : Bool :=
  match l with
  | y1 :: y2 :: y3 :: y4 :: s1 :: m1 :: m2 :: s2 :: d1 :: d2 ::
      sep :: h1 :: h2 :: c1 :: mi1 :: mi2 :: _ =>
    y1.isDigit && y2.isDigit && y3.isDigit && y4.isDigit &&
    s1 == '-' && m1.isDigit && m2.isDigit && s2 == '-' &&
    d1.isDigit && d2.isDigit &&
    (sep == 'T' || jsWhitespace sep) &&
    h1.isDigit && h2.isDigit && c1 == ':' && mi1.isDigit && mi2.isDigit
  | _ => false

/-- Anchored match of one or two digits, a slash or dash, one or two digits,
a slash or dash, and two to four digits. -/
def commonDateShape (l : List Char) : Bool :=
  let p1 := l.span Char.isDigit
  match p1.2 with
  | s1 :: r2 =>
    if (s1 == '/' || s1 == '-') && Nat.ble 1 p1.1.length && Nat.ble p1.1.length 2 then
      let p2 := r2.span Char.isDigit
      match p2.2 with
      | s2 :: r4 =>
        (s2 == '/' || s2 == '-') && Nat.ble 1 p2.1.length && Nat.ble p2.1.length 2 &&
        r4.all Char.isDigit && Nat.ble 2 r4.length && Nat.ble r4.length 4
      | [] => false
    else false
  | [] => false

/-- Case-insensitive anchored match of true, false, yes or no. -/
def booleanShape (l : List Char) : Bool :=
  let low := l.map Char.toLower
  low == "true".toList || low == "false".toList ||
  low == "yes".toList || low == "no".toList

/-- Value of a list of decimal digits. -/
def digitsVal (l : List Char) : Nat :=
  l.foldl (fun acc c => acc * 10 + (c.toNat - 48)) 0

/-- Hexadecimal digit test. -/
def hexDigit (c : Char) : Bool :=
  c.isDigit || (Nat.ble 97 c.toLower.toNat && Nat.ble c.toLower.toNat 102)

/-- Value of a list of hexadecimal digits. -/
def hexDigitsVal (l : List Char) : Nat :=
  l.foldl (fun acc c =>
    acc * 16 + (if c.isDigit then c.toNat - 48 else c.toLower.toNat - 87)) 0

/-- Model of the JavaScript parseInt applied without an explicit radix: skip
leading whitespace, read an optional sign, detect a hexadecimal prefix, then
take the longest digit prefix; none models NaN. Digit strings beyond 53 bits
lose precision in the JavaScript double result; the model keeps them exact,
which changes no comparison against the 32 bit bounds used downstream. -/
def parseIntJS (l : List Char) : Option Int :=
  let t := l.dropWhile jsWhitespace
  let sr : Bool × List Char :=
    match t with
    | '+' :: rest => (false, rest)
    | '-' :: rest => (true, rest)
    | rest => (false, rest)
  let mag : Option Nat :=
    match sr.2 with
    | '0' :: 'x' :: rest =>
      let ds := rest.takeWhile hexDigit
      if ds.isEmpty then none else some (hexDigitsVal ds)
    | '0' :: 'X' :: rest =>
      let ds := rest.takeWhile hexDigit
      if ds.isEmpty then none else some (hexDigitsVal ds)
    | r =>
      let ds := r.takeWhile Char.isDigit
      if ds.isEmpty then none else some (digitsVal ds)
  match mag with
  | none => none
  | some m => some (if sr.1 then -(m : Int) else (m : Int))

/-- Exponent part of a JavaScript float literal: sign flag and digits. -/
def expPart : List Char → Bool × List Char
  | 'e' :: '+' :: rest => (false, rest.takeWhile Char.isDigit)
  | 'e' :: '-' :: rest => (true, rest.takeWhile Char.isDigit)
  | 'e' :: rest => (false, rest.takeWhile Char.isDigit)
  | 'E' :: '+' :: rest => (false, rest.takeWhile Char.isDigit)
  | 'E' :: '-' :: rest => (true, rest.takeWhile Char.isDigit)
  | 'E' :: rest => (false, rest.takeWhile Char.isDigit)
  | _ => (false, [])

/-- Model of the JavaScript parseFloat: optional sign, digits with an
optional fraction and an optional decimal exponent, taken as the longest
valid prefix; none models NaN. The exact decimal value is returned as a
rational; rounding to a binary double and the Infinity literal are not
modelled, and no verified claim depends on them. -/
def parseFloatJS (l : List Char) : Option ℚ :=
  let t := l.dropWhile jsWhitespace
  let sr : Bool × List Char :=
    match t with
    | '+' :: rest => (false, rest)
    | '-' :: rest => (true, rest)
    | rest => (false, rest)
  let ip := sr.2.takeWhile Char.isDigit
  let r1 := sr.2.drop ip.length
  let fr : List Char × List Char :=
    match r1 with
    | '.' :: rest => (rest.takeWhile Char.isDigit, rest.dropWhile Char.isDigit)
    | _ => ([], r1)
  if ip.isEmpty && fr.1.isEmpty then none
  else
    let base : ℚ := (digitsVal ip : ℚ) + (digitsVal fr.1 : ℚ) / ((10 : ℚ) ^ fr.1.length)
    let ex := expPart fr.2
    let withExp : ℚ :=
      if ex.2.isEmpty then base
      else if ex.1 then base / ((10 : ℚ) ^ digitsVal ex.2)
      else base * ((10 : ℚ) ^ digitsVal ex.2)
    some (if sr.1 then -withExp else withExp)

/-- JavaScript values produced by ParserService.convertValue and carried in
table rows. -/
inductive JsValue
  | null
  | undef
  | nan
  | bool (b : Bool)
  | num (q : ℚ)
  | str (s : List Char)
  deriving DecidableEq, Repr

/-- ParserService.inferDataType: classify one trimmed cell value. When the
integer branch parses NaN, both range comparisons are false in JavaScript
and the result is INT; the none branch mirrors that. -/
def inferDataType (value : List Char) : DataType :=
  let trimmed := jsTrim value
  if trimmed.isEmpty || trimmed == "-".toList || trimmed == "N/A".toList then
    DataType.VARCHAR
  else if booleanShape trimmed then
    DataType.BOOLEAN
  else
    let noCommas := trimmed.filter (fun c => c != ',')
    if intShape noCommas then
      match parseIntJS noCommas with
      | some num =>
        if num > 2147483647 ∨ num < -2147483648 then DataType.BIGINT
        else DataType.INT
      | none => DataType.INT
    else if floatShape noCommas then
      DataType.FLOAT
    else if dateShape trimmed then
      DataType.DATE
    else if timestampShape trimmed then
      DataType.TIMESTAMP
    else if commonDateShape trimmed then
      DataType.DATE
    else if trimmed.length > 255 then
      DataType.TEXT
    else
      DataType.VARCHAR

/-- Characters kept by the identifier filter: lowercase ASCII letters,
digits, underscore. -/
def sqlNameChar (c : Char) : Bool :=
  (Nat.ble 97 c.toNat && Nat.ble c.toNat 122) ||
  (Nat.ble 48 c.toNat && Nat.ble c.toNat 57) || c == '_'

/-- Replacement of an anchored leading digit by the col prefix followed by
that digit, as the anchored group replace in the source does. -/
def colPrefix (l : List Char) : List Char :=
  match l with
  | c :: _ => if c.isDigit then 'c' :: 'o' :: 'l' :: '_' :: l else l
  | [] => l

/-- ParserService.sanitizeColumnName: trim, lowercase, collapse whitespace
runs to underscores, drop characters outside the identifier class, prefix a
leading digit with the col marker, truncate to 64 characters. -/
def sanitizeColumnName (name : List Char) : List Char :=
  (colPrefix ((collapseWs '_' false
    ((jsTrim name).map Char.toLower)).filter sqlNameChar)).take 64

/-- ParserService.convertValue: clean the cell, map null sentinels to null,
then parse according to the resolved column type. -/
def convertValue (value : List Char) (dataType : DataType) : JsValue :=
  let cleaned := cleanValue value
  if cleaned.isEmpty || cleaned == "-".toList || cleaned == "N/A".toList then
    JsValue.null
  else
    match dataType with
    | DataType.INT | DataType.BIGINT =>
      match parseIntJS (cleaned.filter (fun c => c != ',')) with
      | some n => JsValue.num (n : ℚ)
      | none => JsValue.nan
    | DataType.FLOAT =>
      match parseFloatJS (cleaned.filter (fun c => c != ',')) with
      | some q => JsValue.num q
      | none => JsValue.nan
    | DataType.BOOLEAN =>
      let low := cleaned.map Char.toLower
      JsValue.bool (low == "true".toList || low == "yes".toList)
    | _ => JsValue.str cleaned

/-- ColumnSchema of schema.model.ts. -/
structure ColumnSchema where
  name : List Char
  type : DataType
  maxLength : Option Nat
  deriving DecidableEq, Repr

/-- TableSchema of schema.model.ts. -/
structure TableSchema where
  columns : List ColumnSchema
  deriving DecidableEq, Repr

/-- TableRow of schema.model.ts, as an association list in column order. -/
abbrev TableRow := List (List Char × JsValue)

/-- One step of the per-column fold inside ParserService.inferSchema: a row
contributes only when its cell at the column index exists and is truthy. -/
def colStep (colIndex : Nat) (acc : Nat × DataType) (row : List (List Char)) :
    Nat × DataType :=
  match row.get? colIndex with
  | some cell =>
    if cell.isEmpty then acc
    else
      let value := cleanValue cell
      (Nat.max acc.1 value.length, mergeDataTypes acc.2 (inferDataType value))
  | none => acc

/-- Maximum observed cleaned length and merged type of one column, folded
over the data rows with the VARCHAR seed used by the source. -/
def inferColumn (rows : List (List (List Char))) (colIndex : Nat) : Nat × DataType :=
  rows.foldl (colStep colIndex) (0, DataType.VARCHAR)

/-- ParserService.inferSchema. -/
def inferSchema (headers : List (List Char)) (rows : List (List (List Char))) :
    TableSchema :=
  { columns := headers.enum.map (fun p =>
      let m := inferColumn rows p.1
      { name := sanitizeColumnName p.2
        type := m.2
        maxLength :=
          if m.2 = DataType.VARCHAR then some (Nat.max 255 m.1) else none }) }

/-- Row conversion step of ParserService.parseTable: a missing cell is read
as the empty string. -/
def convertRow (schema : TableSchema) (rowCells : List (List Char)) : TableRow :=
  schema.columns.enum.map (fun p =>
    (p.2.name, convertValue ((rowCells.get? p.1).getD []) p.2.type))

/-- Spurious repeated header test of ParserService.parseTable: every cell,
cleaned and lowercased, equals the header text at its index; comparison with
a missing header is false. -/
def isHeaderRow (headers : List (List Char)) (cells : List (List Char)) : Bool :=
  cells.enum.all (fun p =>
    match headers.get? p.1 with
    | some h => (cleanValue p.2).map Char.toLower == h.map Char.toLower
    | none => false)

/-- Row filter of ParserService.parseTable: keep rows that have a cell, have
some cell with non-whitespace content, and are not a repeated header. -/
def keepRow (headers : List (List Char)) (cells : List (List Char)) : Bool :=
  !cells.isEmpty && cells.any (fun cell => !(jsTrim cell).isEmpty) &&
  !(isHeaderRow headers cells)

/-- ParsedTable of schema.model.ts. -/
structure ParsedTable where
  schema : TableSchema
  rows : List TableRow
  deriving DecidableEq, Repr

/-- ParserService.parseTable after the DOM extraction of header and cell
text: filter the raw rows, infer the schema, convert the kept rows. -/
def parseTableModel (headers : List (List Char))
    (rawRows : List (List (List Char))) : ParsedTable :=
  let kept := rawRows.filter (keepRow headers)
  let schema := inferSchema headers kept
  { schema := schema, rows := kept.map (convertRow schema) }

/-- The merge operation commutes on the right of a fold. -/
theorem mergeDataTypes_right_comm (z x y : DataType) :
    mergeDataTypes (mergeDataTypes z x) y = mergeDataTypes (mergeDataTypes z y) x := by
  revert z x y
  decide

/-- Natural number maximum commutes on the right of a fold. -/
theorem natMax_right_comm (a b c : Nat) :
    Nat.max (Nat.max a b) c = Nat.max (Nat.max a c) b := by
  simp only [Nat.max_def]
  split_ifs <;> omega

/-- The per-column fold step commutes on the right, so the fold result does
not depend on the order of the rows. -/
theorem colStep_right_comm (i : Nat) (z : Nat × DataType)
    (x y : List (List Char)) :
    colStep i (colStep i z x) y = colStep i (colStep i z y) x := by
  rcases hx : x.get? i with _ | cx <;> rcases hy : y.get? i with _ | cy <;>
    simp only [colStep, hx, hy]
  cases hex : cx.isEmpty <;> cases hey : cy.isEmpty <;>
    simp only [hex, hey, Bool.false_eq_true, if_false, if_true, ite_false, ite_true] <;>
    first
    | rfl
    | exact Prod.ext (natMax_right_comm _ _ _) (mergeDataTypes_right_comm _ _ _)

/-- Column inference is invariant under permutations of the data rows. -/
theorem inferColumn_perm {rows1 rows2 : List (List (List Char))}
    (h : rows1.Perm rows2) : inferColumn rows1 = inferColumn rows2 := by
  funext i
  exact h.foldl_eq' (fun x _ y _ z => colStep_right_comm i z x y) _

/-- C4: the type merge is commutative, associative and idempotent, and
consequently schema inference yields the same column types no matter in
which order the rows are scanned. -/
theorem mergeDataTypes_lattice_and_order_independent :
    (∀ a b : DataType, mergeDataTypes a b = mergeDataTypes b a) ∧
    (∀ a b c : DataType,
      mergeDataTypes (mergeDataTypes a b) c = mergeDataTypes a (mergeDataTypes b c)) ∧
    (∀ a : DataType, mergeDataTypes a a = a) ∧
    (∀ (headers : List (List Char)) (rows1 rows2 : List (List (List Char))),
      rows1.Perm rows2 → inferSchema headers rows1 = inferSchema headers rows2) := by
  refine ⟨by decide, by decide, by decide, ?_⟩
  intro headers rows1 rows2 hperm
  unfold inferSchema
  rw [inferColumn_perm hperm]

/-- Witness for the permutation part of the order independence theorem at a
concrete pair of row lists. -/
theorem mergeDataTypes_order_independent_witness :
    inferSchema [("Age".toList)] [["30".toList], ["x".toList]] =
      inferSchema [("Age".toList)] [["x".toList], ["30".toList]] :=
  mergeDataTypes_lattice_and_order_independent.2.2.2 _ _ _
    (List.Perm.swap _ _ _)

/-- Head test used to state that a sanitized identifier cannot begin with a
digit. -/
def noLeadingDigit (l : List Char) : Bool :=
  match l with
  | [] => true
  | c :: _ => !c.isDigit

/-- A take of a list keeps any property that all elements of the list have. -/
theorem all_take_of_all {p : Char → Bool} {l : List Char}
    (h : l.all p = true) (n : Nat) : (l.take n).all p = true := by
  rw [List.all_eq_true] at h ⊢
  intro c hc
  exact h c (List.take_subset n l hc)

/-- Core well-formedness of the sanitizer output, stated over the already
filtered character list. -/
theorem colPrefix_take_wellformed (l : List Char) :
    ((colPrefix (l.filter sqlNameChar)).take 64).all sqlNameChar = true ∧
    noLeadingDigit ((colPrefix (l.filter sqlNameChar)).take 64) = true ∧
    ((colPrefix (l.filter sqlNameChar)).take 64).length ≤ 64 := by
  have hf : (l.filter sqlNameChar).all sqlNameChar = true := by
    rw [List.all_eq_true]
    intro c hc
    exact (List.mem_filter.mp hc).2
  rcases hc : l.filter sqlNameChar with _ | ⟨c, cs⟩
  · exact ⟨rfl, rfl, by decide⟩
  · rw [hc] at hf
    cases hd : c.isDigit with
    | false =>
      have hp : colPrefix (c :: cs) = c :: cs := by
        simp [colPrefix, hd]
      rw [hp]
      refine ⟨all_take_of_all hf 64, ?_, List.length_take_le _ _⟩
      have ht : (c :: cs).take 64 = c :: cs.take 63 := rfl
      rw [ht]
      simp [noLeadingDigit, hd]
    | true =>
      have hp : colPrefix (c :: cs) = 'c' :: 'o' :: 'l' :: '_' :: c :: cs := by
        simp [colPrefix, hd]
      rw [hp]
      refine ⟨?_, rfl, List.length_take_le _ _⟩
      apply all_take_of_all
      rw [List.all_eq_true] at hf ⊢
      intro x hx
      simp only [List.mem_cons] at hx
      rcases hx with rfl | rfl | rfl | rfl | hx
      · decide
      · decide
      · decide
      · decide
      · exact hf x (List.mem_cons.mpr hx)

/-- C8: every sanitized column name consists only of lowercase letters,
digits and underscores, does not begin with a digit, and has length at most
sixty four. -/
theorem sanitizeColumnName_wellformed (name : List Char) :
    ((sanitizeColumnName name).all sqlNameChar) = true ∧
    noLeadingDigit (sanitizeColumnName name) = true ∧
    (sanitizeColumnName name).length ≤ 64 :=
  colPrefix_take_wellformed _

/-- C1: evaluation of the pipeline at the specified scenario. The fully
empty second row is dropped as specified, but the age column is inferred as
VARCHAR rather than INT, because the per-column fold is seeded with VARCHAR
and the merge keeps the higher-priority type, so the INT classification of
the cell value 30 is absorbed; the single typed row carries the age as the
string 30 rather than the number 30. -/
theorem parseTable_c1_scenario :
    parseTableModel ["Name".toList, "Age".toList]
        [["John".toList, "30".toList], ["".toList, "".toList]] =
      { schema := { columns := [
          { name := "name".toList, type := DataType.VARCHAR, maxLength := some 255 },
          { name := "age".toList, type := DataType.VARCHAR, maxLength := some 255 }] },
        rows := [[("name".toList, JsValue.str ("John".toList)),
                  ("age".toList, JsValue.str ("30".toList))]] } := by
  decide

/-- C5: the per-value classification of integer-shaped strings respects the
signed 32 bit boundary exactly as specified, yet the whole-column inference
over the values 30, 40 and 2147483648 yields VARCHAR rather than BIGINT,
because the column fold is seeded with VARCHAR and the merge absorbs every
numeric classification. -/
theorem inferSchema_c5_scenario :
    inferDataType ("30".toList) = DataType.INT ∧
    inferDataType ("40".toList) = DataType.INT ∧
    inferDataType ("2147483647".toList) = DataType.INT ∧
    inferDataType ("2147483648".toList) = DataType.BIGINT ∧
    inferDataType ("-2147483648".toList) = DataType.INT ∧
    inferDataType ("-2147483649".toList) = DataType.BIGINT ∧
    (inferSchema [("Value".toList)]
        [["30".toList], ["40".toList], ["2147483648".toList]]).columns.map
      ColumnSchema.type = [DataType.VARCHAR] := by
  decide

/-- Error raised by an HTTP attempt: whether a response object was present
(absent for network errors and timeouts) and the response status code. -/
structure HttpErr where
  hasResponse : Bool
  status : Nat
  deriving DecidableEq, Repr

/-- HttpService.isRetriableError: network errors and timeouts (no response)
are retriable, as are 5xx statuses and 429. -/
def isRetriableError (e : HttpErr) : Bool :=
  if !e.hasResponse then true
  else Nat.ble 500 e.status || e.status == 429

/-- Outcome of one axios request attempt. -/
inductive AttemptOutcome
  | ok (body : String)
  | fail (e : HttpErr)
  deriving DecidableEq, Repr

/-- Result of HttpService.fetchHtml: success, the immediate rethrow of a
non-retriable error, or the terminal error thrown after the last attempt,
carrying the last underlying cause. -/
inductive FetchResult
  | success (body : String)
  | immediateFailure (e : HttpErr)
  | exhausted (last : Option HttpErr)
  deriving DecidableEq, Repr

/-- A fetch run: its result and the list of backoff delays slept. -/
structure FetchRun where
  result : FetchResult
  delays : List Nat
  deriving DecidableEq, Repr

/-- Retry loop of HttpService.fetchHtml. The remaining count moves in
lockstep with the source loop bound: remaining one means the current attempt
is the final one, after which a failure breaks out to the terminal error
without consulting retriability, exactly as the source checks the attempt
counter before the retriability test. -/
def fetchAux (retryDelay : Nat) (outcomes : Nat → AttemptOutcome) :
    Nat → Nat → Option HttpErr → List Nat → FetchRun
  | _, 0, last, delays => ⟨.exhausted last, delays⟩
  | attempt, remaining + 1, _, delays =>
    match outcomes attempt with
    | .ok body => ⟨.success body, delays⟩
    | .fail e =>
      if remaining = 0 then ⟨.exhausted (some e), delays⟩
      else if isRetriableError e then
        fetchAux retryDelay outcomes (attempt + 1) remaining (some e)
          (delays ++ [retryDelay * attempt])
      else ⟨.immediateFailure e, delays⟩

/-- HttpService.fetchHtml, with the outcome of each request attempt supplied
by an oracle indexed by attempt number starting at one. -/
def fetchHtml (retryDelay maxRetries : Nat) (outcomes : Nat → AttemptOutcome) :
    FetchRun :=
  fetchAux retryDelay outcomes 1 maxRetries none []

/-- Backoff delays for a run of attempts: the base delay times each attempt
number, starting at a given attempt. -/
def backoffs (d a : Nat) : Nat → List Nat
  | 0 => []
  | n + 1 => d * a :: backoffs d (a + 1) n

/-- Attempt outcome test used in hypotheses: a failing attempt whose error
is retriable. -/
def retriableFail : AttemptOutcome → Bool
  | .fail e => isRetriableError e
  | .ok _ => false

/-- Unfold lemma for the retry loop at a positive remaining count. -/
theorem fetchAux_succ (d : Nat) (o : Nat → AttemptOutcome) (a r : Nat)
    (last : Option HttpErr) (delays : List Nat) :
    fetchAux d o a (r + 1) last delays =
      match o a with
      | .ok body => ⟨.success body, delays⟩
      | .fail e =>
        if r = 0 then ⟨.exhausted (some e), delays⟩
        else if isRetriableError e then
          fetchAux d o (a + 1) r (some e) (delays ++ [d * a])
        else ⟨.immediateFailure e, delays⟩ := rfl

/-- Success after a run of retriable failures: the loop sleeps the linear
backoff after each failed attempt and returns the body of the first
successful attempt. -/
theorem fetchAux_success (d : Nat) (o : Nat → AttemptOutcome) :
    ∀ (j a r : Nat) (last : Option HttpErr) (acc : List Nat) (body : String),
      (∀ i ∈ List.range' a j, retriableFail (o i) = true) →
      j < r →
      o (a + j) = .ok body →
      fetchAux d o a r last acc = ⟨.success body, acc ++ backoffs d a j⟩ := by
  intro j
  induction j with
  | zero =>
    intro a r last acc body hall hlt hok
    cases r with
    | zero => omega
    | succ r' =>
      rw [Nat.add_zero] at hok
      rw [fetchAux_succ, hok]
      simp [backoffs]
  | succ k ih =>
    intro a r last acc body hall hlt hok
    cases r with
    | zero => omega
    | succ r' =>
      have ha : retriableFail (o a) = true := by
        apply hall
        simp only [List.mem_range'_1]
        omega
      cases hoa : o a with
      | ok b =>
        rw [hoa] at ha
        simp [retriableFail] at ha
      | fail e =>
        rw [hoa] at ha
        simp only [retriableFail] at ha
        have hr' : ¬(r' = 0) := by omega
        rw [fetchAux_succ, hoa]
        simp only [if_neg hr', ha, if_true, ite_true]
        have hextra : o (a + 1 + k) = .ok body := by
          rw [show a + 1 + k = a + (k + 1) from by omega]
          exact hok
        have htail : ∀ i ∈ List.range' (a + 1) k, retriableFail (o i) = true := by
          intro i hi
          apply hall
          simp only [List.mem_range'_1] at hi ⊢
          omega
        rw [ih (a + 1) r' (some e) (acc ++ [d * a]) body htail (by omega) hextra]
        simp [backoffs, List.append_assoc]

/-- Exhaustion: when every attempt before the final one fails with a
retriable error and the final attempt also fails, the loop breaks out and
reports the terminal error carrying the final cause. -/
theorem fetchAux_exhausted (d : Nat) (o : Nat → AttemptOutcome) :
    ∀ (j a : Nat) (last : Option HttpErr) (acc : List Nat) (e : HttpErr),
      (∀ i ∈ List.range' a j, retriableFail (o i) = true) →
      o (a + j) = .fail e →
      fetchAux d o a (j + 1) last acc =
        ⟨.exhausted (some e), acc ++ backoffs d a j⟩ := by
  intro j
  induction j with
  | zero =>
    intro a last acc e hall hfail
    rw [Nat.add_zero] at hfail
    rw [fetchAux_succ, hfail]
    simp [backoffs]
  | succ k ih =>
    intro a last acc e hall hfail
    have ha : retriableFail (o a) = true := by
      apply hall
      simp only [List.mem_range'_1]
      omega
    cases hoa : o a with
    | ok b =>
      rw [hoa] at ha
      simp [retriableFail] at ha
    | fail e0 =>
      rw [hoa] at ha
      simp only [retriableFail] at ha
      have hk : ¬(k + 1 = 0) := by omega
      have hextra : o (a + 1 + k) = .fail e := by
        rw [show a + 1 + k = a + (k + 1) from by omega]
        exact hfail
      have htail : ∀ i ∈ List.range' (a + 1) k, retriableFail (o i) = true := by
        intro i hi
        apply hall
        simp only [List.mem_range'_1] at hi ⊢
        omega
      rw [fetchAux_succ, hoa]
      simp only [if_neg hk, ha, if_true, ite_true]
      rw [ih (a + 1) (some e0) (acc ++ [d * a]) e htail hextra]
      simp [backoffs, List.append_assoc]

/-- Immediate failure: a non-retriable error before the final attempt is
rethrown at once, with no further attempt and no further sleep. -/
theorem fetchAux_immediate (d : Nat) (o : Nat → AttemptOutcome) :
    ∀ (j a r : Nat) (last : Option HttpErr) (acc : List Nat) (e : HttpErr),
      (∀ i ∈ List.range' a j, retriableFail (o i) = true) →
      j + 1 < r →
      o (a + j) = .fail e →
      isRetriableError e = false →
      fetchAux d o a r last acc =
        ⟨.immediateFailure e, acc ++ backoffs d a j⟩ := by
  intro j
  induction j with
  | zero =>
    intro a r last acc e hall hlt hfail hnr
    cases r with
    | zero => omega
    | succ r' =>
      rw [Nat.add_zero] at hfail
      have hr' : ¬(r' = 0) := by omega
      rw [fetchAux_succ, hfail]
      simp [if_neg hr', hnr, backoffs]
  | succ k ih =>
    intro a r last acc e hall hlt hfail hnr
    cases r with
    | zero => omega
    | succ r' =>
      have ha : retriableFail (o a) = true := by
        apply hall
        simp only [List.mem_range'_1]
        omega
      cases hoa : o a with
      | ok b =>
        rw [hoa] at ha
        simp [retriableFail] at ha
      | fail e0 =>
        rw [hoa] at ha
        simp only [retriableFail] at ha
        have hr' : ¬(r' = 0) := by omega
        have hextra : o (a + 1 + k) = .fail e := by
          rw [show a + 1 + k = a + (k + 1) from by omega]
          exact hfail
        have htail : ∀ i ∈ List.range' (a + 1) k, retriableFail (o i) = true := by
          intro i hi
          apply hall
          simp only [List.mem_range'_1] at hi ⊢
          omega
        rw [fetchAux_succ, hoa]
        simp only [if_neg hr', ha, if_true, ite_true]
        rw [ih (a + 1) r' (some e0) (acc ++ [d * a]) e htail (by omega) hextra hnr]
        simp [backoffs, List.append_assoc]

/-- C7: the fetch wrapper retries retriable failures (network errors,
timeouts, 5xx and 429) with backoff delay equal to the base delay times the
attempt number, up to the configured number of attempts; a non-retriable
client error before the final attempt fails immediately with no further
attempt and no sleep; and when every attempt fails, the run ends in the
terminal error carrying the last underlying cause. -/
theorem fetchHtml_retry_policy (d m : Nat) (o : Nat → AttemptOutcome) :
    (∀ j body, j < m →
      (∀ i ∈ List.range' 1 j, retriableFail (o i) = true) →
      o (1 + j) = .ok body →
      fetchHtml d m o = ⟨.success body, backoffs d 1 j⟩) ∧
    (∀ j e, j + 1 < m →
      (∀ i ∈ List.range' 1 j, retriableFail (o i) = true) →
      o (1 + j) = .fail e →
      isRetriableError e = false →
      fetchHtml d m o = ⟨.immediateFailure e, backoffs d 1 j⟩) ∧
    (∀ e, 1 ≤ m →
      (∀ i ∈ List.range' 1 (m - 1), retriableFail (o i) = true) →
      o m = .fail e →
      fetchHtml d m o = ⟨.exhausted (some e), backoffs d 1 (m - 1)⟩) := by
  refine ⟨?_, ?_, ?_⟩
  · intro j body hlt hall hok
    have := fetchAux_success d o j 1 m none [] body hall hlt hok
    simpa [fetchHtml] using this
  · intro j e hlt hall hfail hnr
    have := fetchAux_immediate d o j 1 m none [] e hall hlt hfail hnr
    simpa [fetchHtml] using this
  · intro e hm hall hfail
    have hfail1 : o (1 + (m - 1)) = .fail e := by
      rw [show 1 + (m - 1) = m from by omega]
      exact hfail
    have := fetchAux_exhausted d o (m - 1) 1 none [] e hall hfail1
    rw [show m - 1 + 1 = m from by omega] at this
    simpa [fetchHtml] using this

/-- Oracle failing twice retriably, then succeeding. -/
def oracleSucc : Nat → AttemptOutcome :=
  fun i => if i = 3 then .ok "done" else .fail ⟨false, 0⟩

/-- Oracle failing with a client error on the first attempt. -/
def oracleClient : Nat → AttemptOutcome :=
  fun _ => .fail ⟨true, 404⟩

/-- Oracle failing with a server error on every attempt. -/
def oracleServer : Nat → AttemptOutcome :=
  fun _ => .fail ⟨true, 500⟩

/-- Witness for the retry policy theorem: all three branches at concrete
oracles, with base delay seven and three attempts. -/
theorem fetchHtml_retry_policy_witness :
    fetchHtml 7 3 oracleSucc = ⟨.success "done", [7, 14]⟩ ∧
    fetchHtml 7 3 oracleClient = ⟨.immediateFailure ⟨true, 404⟩, []⟩ ∧
    fetchHtml 7 3 oracleServer = ⟨.exhausted (some ⟨true, 500⟩), [7, 14]⟩ :=
  ⟨(fetchHtml_retry_policy 7 3 oracleSucc).1 2 "done" (by decide) (by decide)
      (by decide),
   (fetchHtml_retry_policy 7 3 oracleClient).2.1 0 ⟨true, 404⟩ (by decide)
      (by decide) (by decide) (by decide),
   (fetchHtml_retry_policy 7 3 oracleServer).2.2 ⟨true, 500⟩ (by decide)
      (by decide) (by decide)⟩

/-- Rows handled by the consumer side and the database layer: JavaScript
objects modelled as association lists from column name to value, with
distinct keys. -/
abbrev DbRow := List (String × JsValue)

/-- Property lookup on a row object; none models undefined (absent key). -/
def rowGet : DbRow → String → Option JsValue
  | [], _ => none
  | p :: ps, k => if p.1 == k then some p.2 else rowGet ps k

/-- Column list of DatabaseService.insertBatch: the keys of the first row
whose value is not undefined. -/
def insertColumns (r0 : DbRow) : List String :=
  (r0.map Prod.fst).filter (fun k => rowGet r0 k != some JsValue.undef)

/-- Value placed in the insert tuple for one row and column: null when the
property is undefined or absent, the stored value otherwise. -/
def sqlCell (row : DbRow) (col : String) : JsValue :=
  match rowGet row col with
  | none => JsValue.null
  | some JsValue.undef => JsValue.null
  | some v => v

/-- The single INSERT statement assembled by DatabaseService.insertBatch:
a column list and one value tuple per row. -/
structure SqlInsert where
  columns : List String
  values : List (List JsValue)
  deriving DecidableEq, Repr

/-- DatabaseService.insertBatch: none models the early return on an empty
batch, where no SQL is executed; otherwise all rows are written in one
statement whose column list comes from the first row only. -/
def insertBatch (rows : List DbRow) : Option SqlInsert :=
  match rows with
  | [] => none
  | r0 :: _ =>
    some { columns := insertColumns r0
           values := rows.map (fun row => (insertColumns r0).map (sqlCell row)) }

/-- Lookup on a row with distinct keys finds the stored value. -/
theorem rowGet_eq_of_mem_nodup {r : DbRow} {k : String} {v : JsValue}
    (hnd : (r.map Prod.fst).Nodup) (hm : (k, v) ∈ r) : rowGet r k = some v := by
  induction r with
  | nil => cases hm
  | cons p ps ih =>
    rw [List.map_cons, List.nodup_cons] at hnd
    rcases List.mem_cons.mp hm with heq | hm2
    · rw [← heq]
      simp [rowGet]
    · have hk : k ∈ ps.map Prod.fst := List.mem_map.mpr ⟨(k, v), hm2, rfl⟩
      have hne : ¬((p.1 == k) = true) := fun h => hnd.1 (eq_of_beq h ▸ hk)
      rw [rowGet, if_neg hne]
      exact ih hnd.2 hm2

/-- C6 counterexample: in a batch whose second row has the key b, the
written column set is taken from the first row only and omits b, and the
second row is written as a null tuple under the first row's single column. -/
theorem insertBatch_c6_counterexample :
    (insertBatch [[("a", JsValue.bool true)], [("b", JsValue.bool false)]]).map
      SqlInsert.columns = some ["a"] ∧
    "b" ∈ ([("b", JsValue.bool false)] : DbRow).map Prod.fst ∧
    "b" ∉ (["a"] : List String) ∧
    (insertBatch [[("a", JsValue.bool true)], [("b", JsValue.bool false)]]).map
      SqlInsert.values = some [[JsValue.bool true], [JsValue.null]] := by
  decide

/-- C6 amended: on a non-empty batch, insertBatch writes all given rows in
one statement; the column set is derived from the keys of the first row
(those with a defined value), every such key appears in the written column
set, and keys appearing only in later rows are omitted. -/
theorem insertBatch_first_row_columns (r0 : DbRow) (rest : List DbRow)
    (hnd : (r0.map Prod.fst).Nodup) :
    insertBatch (r0 :: rest) =
      some { columns := insertColumns r0
             values := (r0 :: rest).map
               (fun row => (insertColumns r0).map (sqlCell row)) } ∧
    (∀ k v, (k, v) ∈ r0 → v ≠ JsValue.undef → k ∈ insertColumns r0) := by
  refine ⟨rfl, ?_⟩
  intro k v hm hv
  apply List.mem_filter.mpr
  refine ⟨List.mem_map.mpr ⟨(k, v), hm, rfl⟩, ?_⟩
  rw [rowGet_eq_of_mem_nodup hnd hm, bne_iff_ne]
  intro h
  exact hv (Option.some.inj h)

/-- Witness for the amended insertBatch theorem at a concrete batch. -/
theorem insertBatch_first_row_columns_witness :
    "a" ∈ insertColumns [("a", JsValue.bool true)] :=
  (insertBatch_first_row_columns [("a", JsValue.bool true)]
      [[("b", JsValue.bool false)]] (by decide)).2 "a" (JsValue.bool true)
    (by decide) (by decide)

/-- Effects observable at the boundaries of the assembled consumer process:
table creation, an invocation of the installed message handler with the
cached schema, a batch write reaching the database, and resource release. -/
inductive Effect
  | createTable (schema : TableSchema)
  | deliver (schema : TableSchema) (row : DbRow)
  | sinkWrite (rows : List DbRow)
  | brokerDisconnect
  | dbClose
  deriving DecidableEq, Repr

/-- Combined instance state of KafkaConsumerService (buffer, cached schema,
configured batch size) and of the closure installed by
ConsumerController.setupBatchProcessing (its own buffer, message counter,
table flag). -/
structure SysState where
  buffer : List DbRow
  currentSchema : Option TableSchema
  batchSize : Nat
  ctrlBuffer : List DbRow
  batchCount : Nat
  tableInitialized : Bool
  deriving DecidableEq, Repr

/-- Message handler installed by ConsumerController.setupBatchProcessing:
create the table on the first handled message carrying a schema, append the
row to the controller buffer, count it, and insert one batch once a hundred
rows have accumulated. -/
def handlerStep (st : SysState) (schema : Option TableSchema) (row : DbRow) :
    SysState × List Effect :=
  let createEffs : List Effect :=
    match st.tableInitialized, schema with
    | false, some s => [Effect.createTable s]
    | _, _ => []
  let st1 : SysState :=
    match st.tableInitialized, schema with
    | false, some _ => { st with tableInitialized := true }
    | _, _ => st
  let buf := st1.ctrlBuffer ++ [row]
  if 100 ≤ buf.length then
    ({ st1 with ctrlBuffer := [], batchCount := st1.batchCount + 1 },
      createEffs ++ [Effect.sinkWrite buf])
  else
    ({ st1 with ctrlBuffer := buf, batchCount := st1.batchCount + 1 }, createEffs)

/-- One iteration of the loop inside KafkaConsumerService.flushBuffer:
invoke the handler on one buffered row with the cached schema, recording
the invocation and the handler effects. -/
def flushStep (cs : TableSchema) (acc : SysState × List Effect) (row : DbRow) :
    SysState × List Effect :=
  let h := handlerStep acc.1 (some cs) row
  (h.1, acc.2 ++ [Effect.deliver cs row] ++ h.2)

/-- KafkaConsumerService.flushBuffer, taken as one atomic operation of the
sequential semantics: return unchanged when the buffer is empty or no
schema is cached (the handler is always set in the assembled system);
otherwise hand every buffered row to the handler in order with the cached
schema, then clear the buffer. -/
def flushBuffer (st : SysState) : SysState × List Effect :=
  match st.currentSchema with
  | none => (st, [])
  | some cs =>
    if st.buffer.isEmpty then (st, [])
    else
      let r := st.buffer.foldl (flushStep cs) (st, [])
      ({ r.1 with buffer := [] }, r.2)

/-- KafkaConsumerService.handleMessage: cache the schema of the first
message that carries one, append the row to the buffer unconditionally,
flush when the buffer has reached the configured batch size. -/
def handleMessage (st : SysState) (schema : Option TableSchema) (row : DbRow) :
    SysState × List Effect :=
  let st1 : SysState :=
    if st.currentSchema.isNone ∧ schema.isSome then { st with currentSchema := schema }
    else st
  let st2 := { st1 with buffer := st1.buffer ++ [row] }
  if st2.batchSize ≤ st2.buffer.length then flushBuffer st2 else (st2, [])

/-- Periodic flush of KafkaConsumerService.startConsuming: flush only when
the buffer is non-empty. -/
def consumerTimerStep (st : SysState) : SysState × List Effect :=
  if st.buffer.isEmpty then (st, []) else flushBuffer st

/-- Periodic flush of ConsumerController.setupBatchProcessing: insert the
controller buffer when it is non-empty. -/
def ctrlTimerStep (st : SysState) : SysState × List Effect :=
  if st.ctrlBuffer.isEmpty then (st, [])
  else ({ st with ctrlBuffer := [] }, [Effect.sinkWrite st.ctrlBuffer])

/-- ConsumerController.destroy: KafkaConsumerService.onDisconnect flushes
the consumer buffer when it is non-empty and a schema and handler are
present, the broker connection is released, then DatabaseService.destroy
closes the database connection. -/
def shutdownStep (st : SysState) : SysState × List Effect :=
  let r :=
    if !st.buffer.isEmpty && st.currentSchema.isSome then flushBuffer st
    else (st, [])
  (r.1, r.2 ++ [Effect.brokerDisconnect, Effect.dbClose])

/-- Events driving the assembled consumer process in the sequential
(dispatch-loop) semantics. -/
inductive Event
  | msg (schema : Option TableSchema) (row : DbRow)
  | consumerTimer
  | ctrlTimer
  | shutdown
  deriving DecidableEq, Repr

/-- Dispatch of one event. -/
def stepEvent (st : SysState) : Event → SysState × List Effect
  | .msg s r => handleMessage st s r
  | .consumerTimer => consumerTimerStep st
  | .ctrlTimer => ctrlTimerStep st
  | .shutdown => shutdownStep st

/-- Run of a list of events, concatenating the effect traces. -/
def runEvents (st : SysState) : List Event → SysState × List Effect
  | [] => (st, [])
  | e :: es =>
    let r1 := stepEvent st e
    let r2 := runEvents r1.1 es
    (r2.1, r1.2 ++ r2.2)

/-- Initial state of a consumer session. -/
def initState (batchSize : Nat) : SysState :=
  { buffer := [], currentSchema := none, batchSize := batchSize,
    ctrlBuffer := [], batchCount := 0, tableInitialized := false }

/-- The handler leaves the consumer-side fields of the state unchanged. -/
theorem handlerStep_fields (st : SysState) (s : Option TableSchema) (row : DbRow) :
    (handlerStep st s row).1.currentSchema = st.currentSchema ∧
    (handlerStep st s row).1.buffer = st.buffer ∧
    (handlerStep st s row).1.batchSize = st.batchSize := by
  unfold handlerStep
  cases hti : st.tableInitialized <;> cases hs : s <;>
    simp only [hti, hs] <;> split <;> simp

/-- Every effect of one handler invocation is a table creation or a
non-empty batch write. -/
theorem handlerStep_effects (st : SysState) (s : Option TableSchema) (row : DbRow) :
    ∀ e ∈ (handlerStep st s row).2,
      (∃ sch, e = Effect.createTable sch) ∨
      (∃ rows, e = Effect.sinkWrite rows ∧ rows ≠ []) := by
  intro e he
  unfold handlerStep at he
  cases hti : st.tableInitialized <;> cases hs : s <;>
    simp only [hti, hs] at he <;> split at he <;> simp at he <;>
    rcases he with rfl | rfl <;>
    first
    | exact Or.inl ⟨_, rfl⟩
    | exact Or.inr ⟨_, rfl, by simp⟩

/-- When the table flag is already set, the handler keeps it set and never
creates a table. -/
theorem handlerStep_tableInit (st : SysState) (s : Option TableSchema) (row : DbRow)
    (h : st.tableInitialized = true) :
    (handlerStep st s row).1.tableInitialized = true ∧
    ∀ sch, Effect.createTable sch ∉ (handlerStep st s row).2 := by
  unfold handlerStep
  cases hs : s <;> simp only [h, hs] <;> split <;> simp

/-- The flush loop leaves the consumer-side fields unchanged. -/
theorem flushFold_fields (cs : TableSchema) :
    ∀ (buf : List DbRow) (p : SysState × List Effect),
      (buf.foldl (flushStep cs) p).1.currentSchema = p.1.currentSchema ∧
      (buf.foldl (flushStep cs) p).1.buffer = p.1.buffer ∧
      (buf.foldl (flushStep cs) p).1.batchSize = p.1.batchSize := by
  intro buf
  induction buf with
  | nil => intro p; exact ⟨rfl, rfl, rfl⟩
  | cons r rs ih =>
    intro p
    have h1 := handlerStep_fields p.1 (some cs) r
    have h2 := ih (flushStep cs p r)
    rw [List.foldl_cons]
    exact ⟨h2.1.trans h1.1, h2.2.1.trans h1.2.1, h2.2.2.trans h1.2.2⟩

/-- Every effect the flush loop adds to the accumulator is a delivery under
the cached schema, a non-empty batch write, or a table creation. -/
theorem flushFold_new_effects (cs : TableSchema) :
    ∀ (buf : List DbRow) (p : SysState × List Effect) (e : Effect),
      e ∈ (buf.foldl (flushStep cs) p).2 →
      e ∈ p.2 ∨ (∃ r, e = Effect.deliver cs r) ∨
        (∃ rows, e = Effect.sinkWrite rows ∧ rows ≠ []) ∨
        (∃ sch, e = Effect.createTable sch) := by
  intro buf
  induction buf with
  | nil => intro p e he; exact Or.inl he
  | cons r rs ih =>
    intro p e he
    rw [List.foldl_cons] at he
    rcases ih (flushStep cs p r) e he with hin | hrest
    · unfold flushStep at hin
      simp only [List.mem_append, List.mem_singleton] at hin
      rcases hin with (hin | rfl) | hin
      · exact Or.inl hin
      · exact Or.inr (Or.inl ⟨r, rfl⟩)
      · rcases handlerStep_effects p.1 (some cs) r e hin with hct | hsw
        · exact Or.inr (Or.inr (Or.inr hct))
        · exact Or.inr (Or.inr (Or.inl hsw))
    · exact Or.inr hrest

/-- When the table flag is set, the flush loop keeps it set and adds no
table creation. -/
theorem flushFold_no_new_createTable (cs : TableSchema) :
    ∀ (buf : List DbRow) (p : SysState × List Effect),
      p.1.tableInitialized = true →
      (buf.foldl (flushStep cs) p).1.tableInitialized = true ∧
      ∀ sch, Effect.createTable sch ∈ (buf.foldl (flushStep cs) p).2 →
        Effect.createTable sch ∈ p.2 := by
  intro buf
  induction buf with
  | nil => intro p hp; exact ⟨hp, fun _ h => h⟩
  | cons r rs ih =>
    intro p hp
    rw [List.foldl_cons]
    have h1 := handlerStep_tableInit p.1 (some cs) r hp
    have h2 := ih (flushStep cs p r) h1.1
    refine ⟨h2.1, fun sch hm => ?_⟩
    have := h2.2 sch hm
    unfold flushStep at this
    simp only [List.mem_append, List.mem_singleton] at this
    rcases this with (hin | heq) | hin
    · exact hin
    · cases heq
    · exact absurd hin (h1.2 sch)

/-- A flush of an empty buffer is a no-op with no effects. -/
theorem flushBuffer_empty_noop (st : SysState) (h : st.buffer = []) :
    flushBuffer st = (st, []) := by
  unfold flushBuffer
  cases hcs : st.currentSchema
  · rfl
  · simp [h]

/-- A flush preserves the cached schema. -/
theorem flushBuffer_currentSchema (st : SysState) :
    (flushBuffer st).1.currentSchema = st.currentSchema := by
  unfold flushBuffer
  cases hcs : st.currentSchema with
  | none => exact hcs
  | some cs =>
    by_cases hb : st.buffer.isEmpty
    · simp [hb, hcs]
    · simp only [hb, Bool.false_eq_true, if_false, ite_false]
      exact ((flushFold_fields cs st.buffer (st, [])).1).trans hcs

/-- Every batch write emitted by a flush is non-empty. -/
theorem flushBuffer_sink_nonempty (st : SysState) :
    ∀ rows, Effect.sinkWrite rows ∈ (flushBuffer st).2 → rows ≠ [] := by
  intro rows hm
  unfold flushBuffer at hm
  cases hcs : st.currentSchema with
  | none => rw [hcs] at hm; cases hm
  | some cs =>
    rw [hcs] at hm
    by_cases hb : st.buffer.isEmpty
    · simp [hb] at hm
    · simp only [hb, Bool.false_eq_true, if_false, ite_false] at hm
      rcases flushFold_new_effects cs st.buffer (st, []) _ hm with h | h | h | h
      · cases h
      · rcases h with ⟨r, h⟩; cases h
      · rcases h with ⟨rows2, heq, hne⟩; cases heq; exact hne
      · rcases h with ⟨sch, h⟩; cases h

/-- Every delivery emitted by a flush carries the cached schema. -/
theorem flushBuffer_deliver_schema (st : SysState) (c : TableSchema)
    (h : st.currentSchema = some c) :
    ∀ sch r, Effect.deliver sch r ∈ (flushBuffer st).2 → sch = c := by
  intro sch r hm
  unfold flushBuffer at hm
  rw [h] at hm
  by_cases hb : st.buffer.isEmpty
  · simp [hb] at hm
  · simp only [hb, Bool.false_eq_true, if_false, ite_false] at hm
    rcases flushFold_new_effects c st.buffer (st, []) _ hm with h2 | h2 | h2 | h2
    · cases h2
    · rcases h2 with ⟨r2, h2⟩; cases h2; rfl
    · rcases h2 with ⟨rows2, heq, _⟩; cases heq
    · rcases h2 with ⟨sch2, h2⟩; cases h2

/-- When the table flag is set, a flush emits no table creation. -/
theorem flushBuffer_no_createTable (st : SysState)
    (h : st.tableInitialized = true) :
    ∀ sch, Effect.createTable sch ∉ (flushBuffer st).2 := by
  intro sch hm
  unfold flushBuffer at hm
  cases hcs : st.currentSchema with
  | none => rw [hcs] at hm; cases hm
  | some cs =>
    rw [hcs] at hm
    by_cases hb : st.buffer.isEmpty
    · simp [hb] at hm
    · simp only [hb, Bool.false_eq_true, if_false, ite_false] at hm
      exact absurd ((flushFold_no_new_createTable cs st.buffer (st, []) h).2 sch hm)
        (by simp)

/-- Every batch write emitted by one handled message is non-empty. -/
theorem handleMessage_sink_nonempty (st : SysState) (s : Option TableSchema)
    (row : DbRow) (rows : List DbRow)
    (hm : Effect.sinkWrite rows ∈ (handleMessage st s row).2) : rows ≠ [] := by
  simp only [handleMessage] at hm
  split at hm <;> split at hm <;>
    first
    | exact flushBuffer_sink_nonempty _ rows hm
    | simp at hm

/-- Every batch write emitted by one event dispatch is non-empty. -/
theorem stepEvent_sink_nonempty (st : SysState) (e : Event) :
    ∀ rows, Effect.sinkWrite rows ∈ (stepEvent st e).2 → rows ≠ [] := by
  intro rows hm
  cases e with
  | msg s r =>
    exact handleMessage_sink_nonempty st s r rows hm
  | consumerTimer =>
    have hm2 : Effect.sinkWrite rows ∈ (consumerTimerStep st).2 := hm
    simp only [consumerTimerStep] at hm2
    split at hm2
    · simp at hm2
    · exact flushBuffer_sink_nonempty _ rows hm2
  | ctrlTimer =>
    have hm2 : Effect.sinkWrite rows ∈ (ctrlTimerStep st).2 := hm
    simp only [ctrlTimerStep] at hm2
    split at hm2
    · simp at hm2
    · next hb =>
      simp only [List.mem_singleton, Effect.sinkWrite.injEq] at hm2
      subst hm2
      intro hnil
      rw [hnil] at hb
      simp at hb
  | shutdown =>
    have hm2 : Effect.sinkWrite rows ∈ (shutdownStep st).2 := hm
    simp only [shutdownStep, List.mem_append] at hm2
    rcases hm2 with hm2 | hm2
    · split at hm2
      · exact flushBuffer_sink_nonempty _ rows hm2
      · simp at hm2
    · simp at hm2

/-- C9: flushing an empty buffer is a no-op, a database batch write is
never executed on an empty row list, and along any run of the assembled
consumer from any state, every batch write handed to the database carries
at least one row. -/
theorem sink_never_receives_empty_batch :
    (∀ st : SysState, st.buffer = [] → flushBuffer st = (st, [])) ∧
    insertBatch [] = none ∧
    (∀ (st : SysState) (evs : List Event) (rows : List DbRow),
      Effect.sinkWrite rows ∈ (runEvents st evs).2 → rows ≠ []) := by
  refine ⟨flushBuffer_empty_noop, rfl, ?_⟩
  intro st evs
  induction evs generalizing st with
  | nil => intro rows hm; cases hm
  | cons e es ih =>
    intro rows hm
    unfold runEvents at hm
    simp only [List.mem_append] at hm
    rcases hm with hm | hm
    · exact stepEvent_sink_nonempty st e rows hm
    · exact ih _ rows hm

/-- Witness for the empty-flush and non-empty-write theorem: a no-op flush
on the fresh state, and the concrete batch write produced by one message
followed by both timers carries the one buffered row. -/
theorem sink_never_receives_empty_batch_witness :
    flushBuffer (initState 5) = (initState 5, []) ∧
    ([[("v", JsValue.null)]] : List DbRow) ≠ [] :=
  ⟨sink_never_receives_empty_batch.1 (initState 5) rfl,
   sink_never_receives_empty_batch.2.2 (initState 100)
     [Event.msg (some { columns := [] }) [("v", JsValue.null)],
      Event.consumerTimer, Event.ctrlTimer]
     [[("v", JsValue.null)]] (by decide)⟩

/-- C10: the session schema is first come, first kept. When a schema is
already cached, handling a message is entirely independent of the schema the
message carries, the cached schema survives unchanged, a message is always
buffered (below threshold: appended with no effect), and every handler
delivery carries the cached first schema; moreover once the table flag is
set no further table is ever created. Schema drift is silently ignored. -/
theorem schema_drift_silently_ignored :
    (∀ (st : SysState) (c : TableSchema) (s1 s2 : Option TableSchema) (row : DbRow),
      st.currentSchema = some c →
      handleMessage st s1 row = handleMessage st s2 row) ∧
    (∀ (st : SysState) (c : TableSchema) (s : Option TableSchema) (row : DbRow),
      st.currentSchema = some c →
      (handleMessage st s row).1.currentSchema = some c) ∧
    (∀ (st : SysState) (s : Option TableSchema) (row : DbRow),
      st.tableInitialized = true →
      ∀ sch, Effect.createTable sch ∉ (handleMessage st s row).2) ∧
    (∀ (st : SysState) (c : TableSchema) (s : Option TableSchema) (row : DbRow),
      st.currentSchema = some c →
      st.buffer.length + 1 < st.batchSize →
      handleMessage st s row = ({ st with buffer := st.buffer ++ [row] }, [])) ∧
    (∀ (st : SysState) (c : TableSchema) (s : Option TableSchema) (row : DbRow)
        (sch : TableSchema) (r : DbRow),
      st.currentSchema = some c →
      Effect.deliver sch r ∈ (handleMessage st s row).2 → sch = c) := by
  have hskip : ∀ (st : SysState) (s : Option TableSchema) (c : TableSchema),
      st.currentSchema = some c →
      (if st.currentSchema.isNone ∧ s.isSome then { st with currentSchema := s }
       else st) = st := by
    intro st s c h
    rw [if_neg]
    simp [h]
  refine ⟨?_, ?_, ?_, ?_, ?_⟩
  · intro st c s1 s2 row h
    simp only [handleMessage]
    rw [hskip st s1 c h, hskip st s2 c h]
  · intro st c s row h
    simp only [handleMessage]
    rw [hskip st s c h]
    split
    · exact (flushBuffer_currentSchema _).trans h
    · exact h
  · intro st s row hti sch hm
    simp only [handleMessage] at hm
    split at hm <;> split at hm <;>
      first
      | exact absurd hm (flushBuffer_no_createTable _ (by exact hti) sch)
      | simp at hm
  · intro st c s row h hlen
    simp only [handleMessage]
    rw [hskip st s c h]
    split
    · next hcond =>
      exfalso
      simp only [List.length_append, List.length_singleton] at hcond
      omega
    · rfl
  · intro st c s row sch r h hm
    simp only [handleMessage] at hm
    rw [hskip st s c h] at hm
    split at hm
    · exact flushBuffer_deliver_schema { st with buffer := st.buffer ++ [row] }
        c h sch r hm
    · simp at hm

/-- Witness for the schema-drift theorem: a concrete state with a cached
empty schema handles a message carrying a different schema exactly as one
carrying none, and simply buffers its row. -/
theorem schema_drift_silently_ignored_witness :
    handleMessage
        { buffer := [], currentSchema := some { columns := [] }, batchSize := 100,
          ctrlBuffer := [], batchCount := 0, tableInitialized := true }
        (some { columns := [{ name := ['x'], type := DataType.INT, maxLength := none }] })
        [("v", JsValue.null)] =
      handleMessage
        { buffer := [], currentSchema := some { columns := [] }, batchSize := 100,
          ctrlBuffer := [], batchCount := 0, tableInitialized := true }
        none [("v", JsValue.null)] ∧
    handleMessage
        { buffer := [], currentSchema := some { columns := [] }, batchSize := 100,
          ctrlBuffer := [], batchCount := 0, tableInitialized := true }
        (some { columns := [{ name := ['x'], type := DataType.INT, maxLength := none }] })
        [("v", JsValue.null)] =
      ({ buffer := [[("v", JsValue.null)]], currentSchema := some { columns := [] },
         batchSize := 100, ctrlBuffer := [], batchCount := 0,
         tableInitialized := true }, []) :=
  ⟨schema_drift_silently_ignored.1 _ { columns := [] } _ none _ rfl,
   schema_drift_silently_ignored.2.2.2.1 _ { columns := [] } _ _ rfl (by decide)⟩

/-- Batch-write detector on effects. -/
def isSinkWrite : Effect → Bool
  | .sinkWrite _ => true
  | _ => false

/-- Handler-invocation detector on effects. -/
def isDeliver : Effect → Bool
  | .deliver _ _ => true
  | _ => false

/-- Consumer state at the moment a shutdown arrives in the C3 scenario:
thirty seven rows buffered, threshold one hundred, session schema cached,
table already created, controller buffer empty. -/
def shutdownScenarioState : SysState :=
  { buffer := List.replicate 37 [("v", JsValue.null)],
    currentSchema := some { columns := [] },
    batchSize := 100, ctrlBuffer := [], batchCount := 0, tableInitialized := true }

/-- C3: evaluation of the shutdown sequence with thirty seven rows buffered
below the threshold of one hundred. The drain hands all thirty seven rows
to the message handler, but the handler only re-buffers them in the
controller closure: not a single batch write reaches the database before
the broker connection and the database connection are released, and the
thirty seven rows are still parked in the controller buffer when the
database closes. -/
theorem shutdown_drain_c3_scenario :
    ((shutdownStep shutdownScenarioState).2.filter isSinkWrite = []) ∧
    (((shutdownStep shutdownScenarioState).2.filter isDeliver).length = 37) ∧
    ((shutdownStep shutdownScenarioState).1.ctrlBuffer.length = 37) ∧
    ((shutdownStep shutdownScenarioState).1.buffer = []) ∧
    ((shutdownStep shutdownScenarioState).2.count Effect.brokerDisconnect = 1) ∧
    ((shutdownStep shutdownScenarioState).2.count Effect.dbClose = 1) := by
  decide

/-- Micro-state of one asynchronous invocation of flushBuffer: idle (its
guard not yet run), suspended inside the delivery loop after having handed
a prefix of its captured array to the handler, or completed. -/
inductive TaskState
  | idle
  | running (arr : List DbRow) (i : Nat)
  | done
  deriving DecidableEq, Repr

/-- One micro-step of a flush invocation, spanning the synchronous code
between two await points of the source. Entry runs the guard: on an empty
buffer it returns at once; otherwise it captures the array currently held
by the buffer field, delivers its first row to the handler and suspends on
the await. A resume delivers the next row of the captured array, or, past
its end, assigns a fresh empty array to the buffer field and completes.
The single-threaded event loop makes each such span atomic, but distinct
invocations interleave at the await points. -/
def raceStep (buffer : List DbRow) (t : TaskState) :
    List DbRow × TaskState × List DbRow :=
  match t with
  | .idle =>
    match buffer with
    | [] => (buffer, .done, [])
    | r :: _ => (buffer, .running buffer 1, [r])
  | .running arr i =>
    match arr.get? i with
    | some r => (buffer, .running arr (i + 1), [r])
    | none => ([], .done, [])
  | .done => (buffer, .done, [])

/-- Two concurrent flush invocations (the size trigger and the timer
trigger) over the shared buffer field, with the rows delivered to the
handler so far; the scheduler picks which invocation performs the next
micro-step, true selecting the first. -/
structure RaceSystem where
  buffer : List DbRow
  taskA : TaskState
  taskB : TaskState
  delivered : List DbRow
  deriving DecidableEq, Repr

/-- Run of a schedule over the two-invocation system. -/
def raceRun : RaceSystem → List Bool → RaceSystem
  | sys, [] => sys
  | sys, pick :: rest =>
    if pick then
      let r := raceStep sys.buffer sys.taskA
      raceRun { buffer := r.1, taskA := r.2.1, taskB := sys.taskB,
                delivered := sys.delivered ++ r.2.2 } rest
    else
      let r := raceStep sys.buffer sys.taskB
      raceRun { buffer := r.1, taskA := sys.taskA, taskB := r.2.1,
                delivered := sys.delivered ++ r.2.2 } rest

/-- The two flush invocations triggered at the same logical instant over a
buffer holding one row. -/
def raceStart : RaceSystem :=
  { buffer := [[("v", JsValue.null)]], taskA := .idle, taskB := .idle,
    delivered := [] }

/-- C2: with no single-flight guard in flushBuffer, the timer-triggered
invocation that starts while the size-triggered one is suspended on its
first await passes the length guard (the buffer is cleared only at loop
end) and iterates the same array, so the single buffered row is handed to
the handler twice, both invocations complete, and the downstream batch then
carries the row twice to the database. -/
theorem flush_race_duplicates_delivery :
    (raceRun raceStart [true, false, true, false]).delivered =
      [[("v", JsValue.null)], [("v", JsValue.null)]] ∧
    (raceRun raceStart [true, false, true, false]).delivered.count
      [("v", JsValue.null)] = 2 ∧
    (raceRun raceStart [true, false, true, false]).taskA = TaskState.done ∧
    (raceRun raceStart [true, false, true, false]).taskB = TaskState.done ∧
    (ctrlTimerStep ((raceRun raceStart [true, false, true, false]).delivered.foldl
        (fun st row => (handlerStep st (some { columns := [] }) row).1)
        { buffer := [], currentSchema := some { columns := [] }, batchSize := 100,
          ctrlBuffer := [], batchCount := 0, tableInitialized := true })).2 =
      [Effect.sinkWrite [[("v", JsValue.null)], [("v", JsValue.null)]]] := by
  decide

end SellWizr
